import Mathlib

/-!
Shallow embedding of the finance-tracker CLI.

The store (an SQLite file) is modelled as Lean lists of records, one list per
table.  Monetary amounts are modelled as exact integers (the source uses
floating-point numbers only for addition, subtraction and comparison, so exact
arithmetic is the intended semantics).  Dates, stored in the source as
ISO `YYYY-MM-DD` strings and compared lexicographically, are modelled as
(year, month, day) triples compared lexicographically, which agrees with the
string comparison on well-formed dates.  Python `dict`s built by comprehensions
are modelled as association lists where the last binding of a key wins and the
key set keeps first-insertion order.
-/

/-- Budget item types, mirroring `BudgetType` in `src/apps/budget.py`. -/
inductive BudgetType where
  | income
  | expense
  | savings
deriving DecidableEq, Repr

/-- Transaction types, mirroring `TransactionType` in `src/apps/transactions.py`. -/
inductive TransactionType where
  | income
  | expense
  | transfer
  | savings
deriving DecidableEq, Repr

/-- A calendar date; the source stores dates as `YYYY-MM-DD` strings. -/
structure Date where
  year : Int
  month : Int
  day : Int
deriving DecidableEq, Repr

/-- Lexicographic comparison of dates: this is exactly the SQL ordering of the
`YYYY-MM-DD` strings used by the source for well-formed dates. -/
def dateLe (a b : Date) : Prop :=
  a.year < b.year ∨
    (a.year = b.year ∧
      (a.month < b.month ∨ (a.month = b.month ∧ a.day ≤ b.day)))

instance (a b : Date) : Decidable (dateLe a b) := by
  unfold dateLe
  exact inferInstance

/-- A row of the `budget_items` table (`src/database.py` lines 22-34); the
auto-increment `id` column plays no role in any operation and is omitted. -/
structure BudgetItem where
  type : BudgetType
  category : String
  month : Int
  year : Int
  amount : Int
deriving DecidableEq, Repr

/-- A row of the `transactions` table (`src/database.py` lines 37-49).  The
`category` column is modelled as a plain string. -/
structure Transaction where
  id : Nat
  date : Date
  description : Option String
  amount : Int
  type : TransactionType
  category : String
  account : String
deriving DecidableEq, Repr

/-- A row of the `targets_items` table (`src/database.py` lines 52-62). -/
structure TargetItem where
  id : Nat
  item_name : String
  price : Int
  priority : Int
  purchased : Bool
deriving DecidableEq, Repr

/-- A row of the `investment_snapshots` table (`src/database.py` lines 65-73);
`snapshot_date` is UNIQUE in the schema. -/
structure InvestmentSnapshot where
  snapshot_date : Date
  amount : Int
deriving DecidableEq, Repr

/-- Code-point comparison of character lists, the order Python `sorted` uses on
strings. -/
def charListLe : List Char → List Char → Bool
  | [], _ => true
  | _ :: _, [] => false
  | a :: as, b :: bs =>
    if a < b then true
    else if b < a then false
    else charListLe as bs

/-- Lexicographic (code-point) order on strings, as used by Python `sorted`. -/
def strLeR (a b : String) : Prop := charListLe a.data b.data = true

instance : DecidableRel strLeR := fun a b => by
  unfold strLeR
  exact inferInstance

/-- Lookup in a Python dict built by a comprehension over query rows: the last
row binding a key wins. -/
def dictLookup (rows : List (String × Int)) (c : String) : Option Int :=
  (rows.reverse.find? (fun r => decide (r.1 = c))).map Prod.snd

/-- Key list of a Python dict built from query rows: distinct keys in
first-insertion order. -/
def dictKeys (rows : List (String × Int)) : List String :=
  (rows.map Prod.fst).dedup

/-- SQL `SELECT category, SUM(amount) ... GROUP BY category` over a list of
transactions: one row per distinct category, carrying the group sum. -/
def groupSumTx (ts : List Transaction) : List (String × Int) :=
  ((ts.map Transaction.category).dedup).map
    (fun c => (c, ((ts.filter (fun t => decide (t.category = c))).map Transaction.amount).sum))

/-- SQL `SELECT category, SUM(amount) ... GROUP BY category` over a list of
budget items. -/
def groupSumBudget (items : List BudgetItem) : List (String × Int) :=
  ((items.map BudgetItem.category).dedup).map
    (fun c => (c, ((items.filter (fun b => decide (b.category = c))).map BudgetItem.amount).sum))

namespace Reports

/-- WHERE clause of the monthly budgeted-expenses query
(`src/apps/reports.py` lines 33-36). -/
def budgetMatchesMonth (m y : Int) (b : BudgetItem) : Bool :=
  decide (b.type = BudgetType.expense) && decide (b.month = m) && decide (b.year = y)

/-- WHERE clause of the yearly budgeted-expenses query
(`src/apps/reports.py` lines 162-166). -/
def budgetMatchesYear (y : Int) (b : BudgetItem) : Bool :=
  decide (b.type = BudgetType.expense) && decide (b.year = y)

/-- WHERE clause of the monthly actual-expenses query
(`src/apps/reports.py` lines 43-47): SUBSTR month and year extraction on an
ISO date equals the date's month and year fields. -/
def txnMatchesMonth (m y : Int) (t : Transaction) : Bool :=
  decide (t.type = TransactionType.expense) && decide (t.date.month = m) && decide (t.date.year = y)

/-- WHERE clause of the yearly actual-expenses query
(`src/apps/reports.py` lines 173-177). -/
def txnMatchesYear (y : Int) (t : Transaction) : Bool :=
  decide (t.type = TransactionType.expense) && decide (t.date.year = y)

/-- `budgeted_per_category` dict rows of the monthly report
(`src/apps/reports.py` lines 33-40): the raw (category, amount) rows, one per
matching `budget_items` row. -/
def budgetedRowsMonth (items : List BudgetItem) (m y : Int) : List (String × Int) :=
  (items.filter (budgetMatchesMonth m y)).map (fun b => (b.category, b.amount))

/-- `actual_per_category` dict rows of the monthly report
(`src/apps/reports.py` lines 43-53): grouped sums, made positive with `abs`. -/
def actualRowsMonth (txns : List Transaction) (m y : Int) : List (String × Int) :=
  (groupSumTx (txns.filter (txnMatchesMonth m y))).map (fun r => (r.1, |r.2|))

/-- `budgeted_per_category` dict rows of the accumulated report
(`src/apps/reports.py` lines 162-170): grouped sums over the year. -/
def budgetedRowsYear (items : List BudgetItem) (y : Int) : List (String × Int) :=
  groupSumBudget (items.filter (budgetMatchesYear y))

/-- `actual_per_category` dict rows of the accumulated report
(`src/apps/reports.py` lines 173-182). -/
def actualRowsYear (txns : List Transaction) (y : Int) : List (String × Int) :=
  (groupSumTx (txns.filter (txnMatchesYear y))).map (fun r => (r.1, |r.2|))

/-- `all_categories` (`src/apps/reports.py` lines 57-59): the sorted union of
the two dicts' key sets. -/
def sortedCategories (bd ad : List (String × Int)) : List String :=
  List.insertionSort strLeR ((dictKeys bd ++ dictKeys ad).dedup)

/-- One line of the report body (`src/apps/reports.py` lines 101-117). -/
structure ReportRow where
  category : String
  budgeted : Int
  actual : Int
  difference : Int
deriving DecidableEq, Repr

/-- The report body (`src/apps/reports.py` lines 101-117): one row per category
in `all_categories`, missing sides defaulting to 0 via `dict.get`. -/
def reportRows (bd ad : List (String × Int)) : List ReportRow :=
  (sortedCategories bd ad).map (fun c =>
    { category := c
      budgeted := (dictLookup bd c).getD 0
      actual := (dictLookup ad c).getD 0
      difference := (dictLookup bd c).getD 0 - (dictLookup ad c).getD 0 })

/-- `total_budgeted` accumulated over the report loop
(`src/apps/reports.py` lines 98-107). -/
def totalBudgeted (rows : List ReportRow) : Int := (rows.map ReportRow.budgeted).sum

/-- `total_actual` accumulated over the report loop. -/
def totalActual (rows : List ReportRow) : Int := (rows.map ReportRow.actual).sum

/-- The final under/over-budget flag (`src/apps/reports.py` lines 119, 135):
true when `overall_difference >= 0`. -/
def underBudget (rows : List ReportRow) : Bool :=
  decide (0 ≤ totalBudgeted rows - totalActual rows)

/-- Outcome of running a report command: either the rendered report, or the
uncaught `ValueError` that Python `max()` raises on an empty sequence. -/
inductive ReportOutcome where
  | crashed
  | report (rows : List ReportRow) (under : Bool)
deriving DecidableEq, Repr

/-- The `reports month` command (`compare_expenses` in `src/apps/reports.py`).
When `all_categories` is empty, line 68 evaluates
`max(len(category) for category in all_categories)`, which raises `ValueError:
max() arg is an empty sequence`; this is modelled by the `crashed` outcome. -/
def compare_expenses (items : List BudgetItem) (txns : List Transaction) (m y : Int) :
    ReportOutcome :=
  let bd := budgetedRowsMonth items m y
  let ad := actualRowsMonth txns m y
  if (sortedCategories bd ad).isEmpty then ReportOutcome.crashed
  else ReportOutcome.report (reportRows bd ad) (underBudget (reportRows bd ad))

/-- The `reports accumulated` command (`accumulated_expenses` in
`src/apps/reports.py`); line 193 raises the same `ValueError` on an empty
category union. -/
def accumulated_expenses (items : List BudgetItem) (txns : List Transaction) (y : Int) :
    ReportOutcome :=
  let bd := budgetedRowsYear items y
  let ad := actualRowsYear txns y
  if (sortedCategories bd ad).isEmpty then ReportOutcome.crashed
  else ReportOutcome.report (reportRows bd ad) (underBudget (reportRows bd ad))

end Reports

namespace NetWorth

/-- The row returned by `SELECT amount, snapshot_date FROM investment_snapshots
ORDER BY snapshot_date DESC LIMIT 1` (`src/apps/networth.py` line 68): a
snapshot with maximal date, or none when the table is empty. -/
def latestSnapshot : List InvestmentSnapshot → Option InvestmentSnapshot
  | [] => none
  | s :: rest =>
    match latestSnapshot rest with
    | none => some s
    | some t => if dateLe t.snapshot_date s.snapshot_date then some s else some t

/-- The hardcoded savings filter of `show_net_worth`
(`src/apps/networth.py` lines 60-63): type Savings and category Cash. -/
def savingsCash (t : Transaction) : Bool :=
  decide (t.type = TransactionType.savings) && decide (t.category = "Cash")

/-- Result of the `networth show` command. -/
structure NetWorthResult where
  totalSavings : Int
  investmentAmount : Int
  noSnapshot : Bool
  netWorth : Int
deriving DecidableEq, Repr

/-- The `networth show` command (`show_net_worth` in `src/apps/networth.py`
lines 48-88).  `SUM(amount)` over no rows is NULL, turned into 0 by
`or 0.0`; a missing snapshot leaves `investment_amount = 0` and prints the
no-snapshot notice instead of failing. -/
def show_net_worth (txns : List Transaction) (snaps : List InvestmentSnapshot) :
    NetWorthResult :=
  let sv := ((txns.filter savingsCash).map Transaction.amount).sum
  let inv := ((latestSnapshot snaps).map InvestmentSnapshot.amount).getD 0
  { totalSavings := sv
    investmentAmount := inv
    noSnapshot := (latestSnapshot snaps).isNone
    netWorth := sv + inv }

end NetWorth

/-- The natural key of a budget item, UNIQUE in the schema
(`src/database.py` line 31). -/
def budgetKey (b : BudgetItem) : BudgetType × String × Int × Int :=
  (b.type, b.category, b.month, b.year)

namespace Budget

/-- The `budget update` command (`src/apps/budget.py` lines 50-57):
`INSERT OR REPLACE` deletes any row conflicting on the UNIQUE
(type, category, month, year) key and inserts the new row. -/
def update (db : List BudgetItem) (it : BudgetItem) : List BudgetItem :=
  it :: db.filter (fun r => !(decide (budgetKey r = budgetKey it)))

/-- Match on the month/year filter of `budget summarize`
(`src/apps/budget.py` lines 77-80). -/
def inPeriod (m y : Int) (b : BudgetItem) : Bool :=
  decide (b.month = m) && decide (b.year = y)

/-- One printed group of `budget summarize`: a budget type, its items in the
order printed, and the `type_total` subtotal. -/
structure TypeGroup where
  type : BudgetType
  items : List BudgetItem
  subtotal : Int
deriving DecidableEq, Repr

/-- Descending-amount order of items within a type group: the SQL
`ORDER BY type, amount DESC` restricted to rows of a single type. -/
def amountDesc (a b : BudgetItem) : Prop := b.amount ≤ a.amount

instance : DecidableRel amountDesc := fun a b => by
  unfold amountDesc
  exact inferInstance

/-- The items of one type printed by `budget summarize`
(`src/apps/budget.py` lines 77-96): the period's rows of that type, in
descending order of amount. -/
def groupItems (db : List BudgetItem) (m y : Int) (bt : BudgetType) : List BudgetItem :=
  List.insertionSort amountDesc
    ((db.filter (inPeriod m y)).filter (fun b => decide (b.type = bt)))

/-- Result of the `budget summarize` command. -/
structure BudgetSummary where
  groups : List TypeGroup
  totalIncome : Int
  totalExpense : Int
  totalSavingsAmt : Int
  surplus : Int
  isSurplus : Bool
deriving DecidableEq, Repr

/-- The `budget summarize` command (`src/apps/budget.py` lines 63-170): groups
the period's items by type in enum order Income, Expense, Savings, each group
in descending order of amount with a subtotal, then
`surplus = Income - Expense - Savings`, labelled Surplus when `surplus >= 0`
and Deficit otherwise. -/
def summarize (db : List BudgetItem) (m y : Int) : BudgetSummary :=
  let g := fun bt => groupItems db m y bt
  let sub := fun bt => ((g bt).map BudgetItem.amount).sum
  { groups :=
      [ { type := BudgetType.income, items := g BudgetType.income, subtotal := sub BudgetType.income }
      , { type := BudgetType.expense, items := g BudgetType.expense, subtotal := sub BudgetType.expense }
      , { type := BudgetType.savings, items := g BudgetType.savings, subtotal := sub BudgetType.savings } ]
    totalIncome := sub BudgetType.income
    totalExpense := sub BudgetType.expense
    totalSavingsAmt := sub BudgetType.savings
    surplus := sub BudgetType.income - sub BudgetType.expense - sub BudgetType.savings
    isSurplus :=
      decide (0 ≤ sub BudgetType.income - sub BudgetType.expense - sub BudgetType.savings) }

end Budget

/-- Messages reported by the delete/achieve commands. -/
inductive Msg where
  | deleted (id : Nat)
  | achieved (id : Nat)
  | notFound (id : Nat)
deriving DecidableEq, Repr

namespace Transactions

/-- The arguments of one `transactions add` invocation
(`src/apps/transactions.py` lines 44-65). -/
structure AddOp where
  amount : Int
  type : TransactionType
  category : String
  account : String
  date : Date
  description : Option String
deriving DecidableEq, Repr

/-- The amount actually inserted (`src/apps/transactions.py` lines 78-80):
expense amounts are negated before the INSERT. -/
def storedAmount (op : AddOp) : Int :=
  if op.type = TransactionType.expense then -op.amount else op.amount

/-- The row built by `transactions add`; `id` is the auto-increment value. -/
def mkTransaction (i : Nat) (op : AddOp) : Transaction :=
  { id := i
    date := op.date
    description := op.description
    amount := storedAmount op
    type := op.type
    category := op.category
    account := op.account }

/-- The `transactions add` command (`src/apps/transactions.py` lines 44-91):
inserts one row with auto-increment id and the sign-adjusted amount. -/
def add_transaction (db : List Transaction) (op : AddOp) : List Transaction :=
  db ++ [mkTransaction (db.length + 1) op]

/-- The `transactions delete` command (`src/apps/transactions.py` lines
94-108): deletes the matching row if any, and prints the deletion message
unconditionally, without consulting the affected-row count. -/
def delete_transaction (db : List Transaction) (tid : Nat) :
    List Transaction × Msg :=
  (db.filter (fun t => !(decide (t.id = tid))), Msg.deleted tid)

/-- WHERE clause of `transactions summarize`
(`src/apps/transactions.py` lines 137-161): month and year always filter
(SUBSTR on the ISO date), type/category/account only when provided. -/
def summarizeFilter (m y : Int) (ty : Option TransactionType)
    (cat acct : Option String) (t : Transaction) : Bool :=
  decide (t.date.month = m) && decide (t.date.year = y) &&
    (match ty with
     | none => true
     | some v => decide (t.type = v)) &&
    (match cat with
     | none => true
     | some c => decide (t.category = c)) &&
    (match acct with
     | none => true
     | some a => decide (t.account = a))

/-- The `ORDER BY date DESC, id DESC` row order of `transactions summarize`. -/
def txnDesc (a b : Transaction) : Prop :=
  (dateLe b.date a.date ∧ ¬dateLe a.date b.date) ∨
    (dateLe b.date a.date ∧ dateLe a.date b.date ∧ b.id ≤ a.id)

instance : DecidableRel txnDesc := fun a b => by
  unfold txnDesc
  exact inferInstance

/-- The rows listed by `transactions summarize`
(`src/apps/transactions.py` lines 134-168). -/
def summarize_transactions (db : List Transaction) (m y : Int)
    (ty : Option TransactionType) (cat acct : Option String) : List Transaction :=
  List.insertionSort txnDesc (db.filter (summarizeFilter m y ty cat acct))

/-- `total_amount` accumulated over the listed rows
(`src/apps/transactions.py` lines 221-244): stored amounts summed directly. -/
def totalAmount (rows : List Transaction) : Int := (rows.map Transaction.amount).sum

end Transactions

namespace Targets

/-- The `targets achieve` command (`src/apps/targets.py` lines 98-116): sets
`purchased` on the matching row; `cursor.rowcount` distinguishes the achieved
message from the not-found message. -/
def achieve_target (db : List TargetItem) (tid : Nat) : List TargetItem × Msg :=
  ( db.map (fun t => if t.id = tid then { t with purchased := true } else t)
  , if db.any (fun t => decide (t.id = tid)) then Msg.achieved tid else Msg.notFound tid )

/-- The `targets delete` command (`src/apps/targets.py` lines 119-137):
deletes the matching row; `cursor.rowcount` distinguishes the deleted message
from the not-found message. -/
def delete_target (db : List TargetItem) (tid : Nat) : List TargetItem × Msg :=
  ( db.filter (fun t => !(decide (t.id = tid)))
  , if db.any (fun t => decide (t.id = tid)) then Msg.deleted tid else Msg.notFound tid )

/-- The `ORDER BY priority ASC, id ASC` row order of `targets list`
(`src/apps/targets.py` line 63). -/
def prioIdLe (a b : TargetItem) : Prop :=
  a.priority < b.priority ∨ (a.priority = b.priority ∧ a.id ≤ b.id)

instance : DecidableRel prioIdLe := fun a b => by
  unfold prioIdLe
  exact inferInstance

/-- The `targets list` command (`src/apps/targets.py` lines 43-67): without
`--all` only rows with `purchased = 0`, with `--all` every row, ordered by
priority then id. -/
def list_targets (db : List TargetItem) (allFlag : Bool) : List TargetItem :=
  List.insertionSort prioIdLe
    (if allFlag then db else db.filter (fun t => decide (t.purchased = false)))

end Targets

/-- Example transactions: two June-2024 Food expenses whose stored amounts have
mixed signs, as the source's own comment about old data anticipates. -/
def exTxnNeg : Transaction :=
  { id := 1, date := { year := 2024, month := 6, day := 15 }, description := none
  , amount := -120, type := TransactionType.expense, category := "Food", account := "Bank" }

/-- Second example transaction, with a positive stored Expense amount. -/
def exTxnPos : Transaction :=
  { id := 2, date := { year := 2024, month := 6, day := 20 }, description := none
  , amount := 50, type := TransactionType.expense, category := "Food", account := "Bank" }

/-- Example budget item used by witnesses. -/
def exBudgetFood : BudgetItem :=
  { type := BudgetType.expense, category := "Food", month := 6, year := 2024, amount := 300 }

/-- Example budget item in a second category used by witnesses. -/
def exBudgetRent : BudgetItem :=
  { type := BudgetType.expense, category := "Rent", month := 6, year := 2024, amount := 800 }

/-- Example investment snapshot used by witnesses. -/
def exSnap : InvestmentSnapshot :=
  { snapshot_date := { year := 2024, month := 5, day := 1 }, amount := 1000 }

/-- Older example investment snapshot used by witnesses. -/
def exSnapOld : InvestmentSnapshot :=
  { snapshot_date := { year := 2023, month := 12, day := 31 }, amount := 400 }

/-- Example savings transaction in the hardcoded Cash category. -/
def exSavTxn : Transaction :=
  { id := 3, date := { year := 2024, month := 6, day := 1 }, description := none
  , amount := 250, type := TransactionType.savings, category := "Cash", account := "Bank" }

/-- Example unpurchased target used by witnesses. -/
def exTargetA : TargetItem :=
  { id := 1, item_name := "Bike", price := 500, priority := 2, purchased := false }

/-- Example purchased target used by witnesses. -/
def exTargetB : TargetItem :=
  { id := 2, item_name := "Desk", price := 300, priority := 1, purchased := true }

/-- Example `transactions add` invocation for an expense. -/
def exAddExpense : Transactions.AddOp :=
  { amount := 120, type := TransactionType.expense, category := "Food"
  , account := "Bank", date := { year := 2024, month := 6, day := 15 }, description := none }

/-- Example `transactions add` invocation for a Cash savings deposit. -/
def exAddSavings : Transactions.AddOp :=
  { amount := 250, type := TransactionType.savings, category := "Cash"
  , account := "Bank", date := { year := 2024, month := 6, day := 1 }, description := none }

/-- Second example budget item for the Food key, used to exercise the upsert. -/
def exBudgetFood200 : BudgetItem :=
  { type := BudgetType.expense, category := "Food", month := 6, year := 2024, amount := 200 }

/-! Helper lemmas. -/

theorem charListLe_total : ∀ as bs : List Char, charListLe as bs = true ∨ charListLe bs as = true
  | [], _ => Or.inl rfl
  | _ :: _, [] => Or.inr rfl
  | a :: as, b :: bs => by
    by_cases hab : a < b
    · exact Or.inl (by simp [charListLe, hab])
    · by_cases hba : b < a
      · exact Or.inr (by simp [charListLe, hba])
      · rcases charListLe_total as bs with h | h
        · exact Or.inl (by simpa [charListLe, hab, hba] using h)
        · exact Or.inr (by simpa [charListLe, hab, hba] using h)

theorem charListLe_trans :
    ∀ as bs cs : List Char,
      charListLe as bs = true → charListLe bs cs = true → charListLe as cs = true
  | [], _, _ => by intro _ _; rfl
  | a :: as, [], _ => by intro h _; simp [charListLe] at h
  | a :: as, b :: bs, [] => by intro _ h; simp [charListLe] at h
  | a :: as, b :: bs, c :: cs => by
    intro h₁ h₂
    rcases lt_trichotomy a b with hab | hab | hab
    · rcases lt_trichotomy b c with hbc | hbc | hbc
      · simp [charListLe, lt_trans hab hbc]
      · subst hbc; simp [charListLe, hab]
      · simp [charListLe, hab, not_lt.mpr (le_of_lt hab)] at h₁ ⊢
        simp [charListLe, hbc, not_lt.mpr (le_of_lt hbc)] at h₂
    · subst hab
      rcases lt_trichotomy a c with hac | hac | hac
      · simp [charListLe, hac]
      · subst hac
        simp [charListLe, lt_irrefl] at h₁ h₂ ⊢
        exact charListLe_trans as bs cs h₁ h₂
      · simp [charListLe, hac, not_lt.mpr (le_of_lt hac)] at h₂
    · simp [charListLe, hab, not_lt.mpr (le_of_lt hab)] at h₁

instance : IsTotal String strLeR :=
  ⟨fun a b => charListLe_total a.data b.data⟩

instance : IsTrans String strLeR :=
  ⟨fun a b c => charListLe_trans a.data b.data c.data⟩

theorem dictLookup_eq_none {rows : List (String × Int)} {c : String}
    (h : c ∉ dictKeys rows) : dictLookup rows c = none := by
  unfold dictLookup
  rw [List.find?_eq_none.mpr, Option.map_none']
  intro r hr
  simp only [decide_eq_true_eq]
  intro hrc
  exact h (by
    unfold dictKeys
    rw [List.mem_dedup]
    exact List.mem_map.mpr ⟨r, (List.mem_reverse).mp hr, hrc⟩)

theorem reportRows_map_category (bd ad : List (String × Int)) :
    (Reports.reportRows bd ad).map Reports.ReportRow.category = Reports.sortedCategories bd ad := by
  unfold Reports.reportRows
  rw [List.map_map]
  exact List.map_id'' (fun _ => rfl) _

theorem sortedCategories_perm (bd ad : List (String × Int)) :
    (Reports.sortedCategories bd ad).Perm ((dictKeys bd ++ dictKeys ad).dedup) :=
  List.perm_insertionSort _ _

theorem sortedCategories_nodup (bd ad : List (String × Int)) :
    (Reports.sortedCategories bd ad).Nodup :=
  (sortedCategories_perm bd ad).nodup_iff.mpr (List.nodup_dedup _)

theorem sortedCategories_mem (bd ad : List (String × Int)) (c : String) :
    c ∈ Reports.sortedCategories bd ad ↔ (c ∈ dictKeys bd ∨ c ∈ dictKeys ad) := by
  rw [(sortedCategories_perm bd ad).mem_iff, List.mem_dedup, List.mem_append]

theorem sortedCategories_sorted (bd ad : List (String × Int)) :
    (Reports.sortedCategories bd ad).Sorted strLeR :=
  List.sorted_insertionSort strLeR _

theorem reportRows_fields (bd ad : List (String × Int)) :
    ∀ r ∈ Reports.reportRows bd ad,
      r.budgeted = (dictLookup bd r.category).getD 0
      ∧ r.actual = (dictLookup ad r.category).getD 0
      ∧ r.difference = r.budgeted - r.actual := by
  intro r hr
  obtain ⟨c, _, rfl⟩ := List.mem_map.mp hr
  exact ⟨rfl, rfl, rfl⟩

/-- C1: the budget-vs-actual report body (shared by the monthly and the
accumulated report) has exactly one row per category in the union of the
budgeted and actual key sets, in lexicographic order of category name; a
category missing on one side gets 0 there, and every row's difference is
budgeted minus actual.  Both report commands produce exactly this body when
they produce one. -/
theorem c1_report_row_structure :
    (∀ bd ad : List (String × Int),
      ((Reports.reportRows bd ad).map Reports.ReportRow.category).Nodup
      ∧ (∀ c, c ∈ (Reports.reportRows bd ad).map Reports.ReportRow.category
           ↔ (c ∈ dictKeys bd ∨ c ∈ dictKeys ad))
      ∧ ((Reports.reportRows bd ad).map Reports.ReportRow.category).Sorted strLeR
      ∧ (∀ r ∈ Reports.reportRows bd ad,
           (r.category ∉ dictKeys bd → r.budgeted = 0)
           ∧ (r.category ∉ dictKeys ad → r.actual = 0)
           ∧ r.difference = r.budgeted - r.actual))
    ∧ (∀ items txns m y rows u,
        Reports.compare_expenses items txns m y = Reports.ReportOutcome.report rows u →
        rows = Reports.reportRows (Reports.budgetedRowsMonth items m y)
          (Reports.actualRowsMonth txns m y))
    ∧ (∀ items txns y rows u,
        Reports.accumulated_expenses items txns y = Reports.ReportOutcome.report rows u →
        rows = Reports.reportRows (Reports.budgetedRowsYear items y)
          (Reports.actualRowsYear txns y)) := by
  refine ⟨fun bd ad => ⟨?_, ?_, ?_, ?_⟩, ?_, ?_⟩
  · rw [reportRows_map_category]; exact sortedCategories_nodup bd ad
  · intro c; rw [reportRows_map_category]; exact sortedCategories_mem bd ad c
  · rw [reportRows_map_category]; exact sortedCategories_sorted bd ad
  · intro r hr
    obtain ⟨hb, ha, hd⟩ := reportRows_fields bd ad r hr
    refine ⟨fun hnb => ?_, fun hna => ?_, hd⟩
    · rw [hb, dictLookup_eq_none hnb]; rfl
    · rw [ha, dictLookup_eq_none hna]; rfl
  · intro items txns m y rows u h
    unfold Reports.compare_expenses at h
    by_cases hc : (Reports.sortedCategories (Reports.budgetedRowsMonth items m y)
        (Reports.actualRowsMonth txns m y)).isEmpty
    · simp [hc] at h
    · simp [hc] at h
      exact h.1.symm
  · intro items txns y rows u h
    unfold Reports.accumulated_expenses at h
    by_cases hc : (Reports.sortedCategories (Reports.budgetedRowsYear items y)
        (Reports.actualRowsYear txns y)).isEmpty
    · simp [hc] at h
    · simp [hc] at h
      exact h.1.symm

theorem c1_witness :
    (⟨"Rent", 0, 70, -70⟩ : Reports.ReportRow).budgeted = 0
    ∧ ([⟨"Food", 300, 70, 230⟩] : List Reports.ReportRow)
        = Reports.reportRows (Reports.budgetedRowsMonth [exBudgetFood] 6 2024)
            (Reports.actualRowsMonth [exTxnNeg, exTxnPos] 6 2024) :=
  ⟨((c1_report_row_structure.1 [("Food", 300)] [("Rent", 70)]).2.2.2
      ⟨"Rent", 0, 70, -70⟩ (by decide)).1 (by decide),
   c1_report_row_structure.2.1 [exBudgetFood] [exTxnNeg, exTxnPos] 6 2024
      [⟨"Food", 300, 70, 230⟩] true (by decide)⟩

theorem sum_map_difference (l : List Reports.ReportRow)
    (h : ∀ r ∈ l, r.difference = r.budgeted - r.actual) :
    (l.map Reports.ReportRow.difference).sum
      = Reports.totalBudgeted l - Reports.totalActual l := by
  induction l with
  | nil => rfl
  | cons a l ih =>
    have ha := h a (List.mem_cons_self a l)
    have hl := ih (fun r hr => h r (List.mem_cons_of_mem a hr))
    simp only [Reports.totalBudgeted, Reports.totalActual, List.map_cons, List.sum_cons] at hl ⊢
    omega

/-- C2: in every produced report body, the sum of per-category differences
equals total budgeted minus total actual, and the under-budget flag is set
exactly when that overall difference is nonnegative; both commands report the
flag computed from their body. -/
theorem c2_totals_and_flag :
    (∀ bd ad : List (String × Int),
      ((Reports.reportRows bd ad).map Reports.ReportRow.difference).sum
        = Reports.totalBudgeted (Reports.reportRows bd ad)
            - Reports.totalActual (Reports.reportRows bd ad)
      ∧ (Reports.underBudget (Reports.reportRows bd ad) = true
          ↔ 0 ≤ Reports.totalBudgeted (Reports.reportRows bd ad)
              - Reports.totalActual (Reports.reportRows bd ad)))
    ∧ (∀ items txns m y rows u,
        Reports.compare_expenses items txns m y = Reports.ReportOutcome.report rows u →
        u = Reports.underBudget rows)
    ∧ (∀ items txns y rows u,
        Reports.accumulated_expenses items txns y = Reports.ReportOutcome.report rows u →
        u = Reports.underBudget rows) := by
  refine ⟨fun bd ad => ⟨?_, ?_⟩, ?_, ?_⟩
  · exact sum_map_difference _ (fun r hr => (reportRows_fields bd ad r hr).2.2)
  · unfold Reports.underBudget
    exact decide_eq_true_iff
  · intro items txns m y rows u h
    unfold Reports.compare_expenses at h
    by_cases hc : (Reports.sortedCategories (Reports.budgetedRowsMonth items m y)
        (Reports.actualRowsMonth txns m y)).isEmpty
    · simp [hc] at h
    · simp [hc] at h
      rw [← h.2, h.1]
  · intro items txns y rows u h
    unfold Reports.accumulated_expenses at h
    by_cases hc : (Reports.sortedCategories (Reports.budgetedRowsYear items y)
        (Reports.actualRowsYear txns y)).isEmpty
    · simp [hc] at h
    · simp [hc] at h
      rw [← h.2, h.1]

theorem c2_witness :
    (true : Bool)
      = Reports.underBudget [⟨"Food", 300, 70, 230⟩] :=
  c2_totals_and_flag.2.1 [exBudgetFood] [exTxnNeg, exTxnPos] 6 2024
    [⟨"Food", 300, 70, 230⟩] true (by decide)

theorem dateLe_refl (a : Date) : dateLe a a := by
  unfold dateLe; omega

theorem dateLe_trans {a b c : Date} (h₁ : dateLe a b) (h₂ : dateLe b c) : dateLe a c := by
  unfold dateLe at h₁ h₂ ⊢; omega

theorem dateLe_total (a b : Date) : dateLe a b ∨ dateLe b a := by
  unfold dateLe; omega

theorem latestSnapshot_mem :
    ∀ {l : List InvestmentSnapshot} {t}, NetWorth.latestSnapshot l = some t → t ∈ l := by
  intro l
  induction l with
  | nil => intro t h; simp [NetWorth.latestSnapshot] at h
  | cons s rest ih =>
    intro t h
    simp only [NetWorth.latestSnapshot] at h
    cases hr : NetWorth.latestSnapshot rest with
    | none =>
      rw [hr] at h
      cases h
      exact List.mem_cons_self _ _
    | some u =>
      rw [hr] at h
      dsimp only at h
      by_cases hd : dateLe u.snapshot_date s.snapshot_date
      · rw [if_pos hd] at h
        cases h
        exact List.mem_cons_self _ _
      · rw [if_neg hd] at h
        cases h
        exact List.mem_cons_of_mem _ (ih hr)

theorem latestSnapshot_nil_of_none :
    ∀ {l : List InvestmentSnapshot}, NetWorth.latestSnapshot l = none → l = [] := by
  intro l
  cases l with
  | nil => intro _; rfl
  | cons s rest =>
    intro h
    simp only [NetWorth.latestSnapshot] at h
    cases hr : NetWorth.latestSnapshot rest with
    | none => rw [hr] at h; cases h
    | some u =>
      rw [hr] at h
      dsimp only at h
      by_cases hd : dateLe u.snapshot_date s.snapshot_date
      · rw [if_pos hd] at h; cases h
      · rw [if_neg hd] at h; cases h

theorem latestSnapshot_max :
    ∀ {l : List InvestmentSnapshot} {t}, NetWorth.latestSnapshot l = some t →
      ∀ u ∈ l, dateLe u.snapshot_date t.snapshot_date := by
  intro l
  induction l with
  | nil => intro t _ u hu; cases hu
  | cons s rest ih =>
    intro t h u hu
    simp only [NetWorth.latestSnapshot] at h
    cases hr : NetWorth.latestSnapshot rest with
    | none =>
      rw [hr] at h
      cases h
      rcases List.mem_cons.mp hu with rfl | hu
      · exact dateLe_refl _
      · rw [latestSnapshot_nil_of_none hr] at hu; cases hu
    | some v =>
      rw [hr] at h
      dsimp only at h
      by_cases hd : dateLe v.snapshot_date s.snapshot_date
      · rw [if_pos hd] at h
        cases h
        rcases List.mem_cons.mp hu with rfl | hu
        · exact dateLe_refl _
        · exact dateLe_trans (ih hr u hu) hd
      · rw [if_neg hd] at h
        cases h
        rcases List.mem_cons.mp hu with rfl | hu
        · exact (dateLe_total _ _).resolve_right hd
        · exact ih hr u hu

/-- C3: net worth is the sum of the stored amounts of Savings-type
transactions in the hardcoded Cash category plus the amount of the snapshot
with the maximum date; with no snapshot, the investment amount is 0 and the
no-snapshot indicator is set, and a result is still produced. -/
theorem c3_net_worth (txns : List Transaction) (snaps : List InvestmentSnapshot) :
    (NetWorth.show_net_worth txns snaps).netWorth
        = (NetWorth.show_net_worth txns snaps).totalSavings
            + (NetWorth.show_net_worth txns snaps).investmentAmount
    ∧ (NetWorth.show_net_worth txns snaps).totalSavings
        = ((txns.filter NetWorth.savingsCash).map Transaction.amount).sum
    ∧ (snaps = [] →
        (NetWorth.show_net_worth txns snaps).investmentAmount = 0
        ∧ (NetWorth.show_net_worth txns snaps).noSnapshot = true)
    ∧ (snaps ≠ [] →
        ∃ t ∈ snaps, (∀ u ∈ snaps, dateLe u.snapshot_date t.snapshot_date)
          ∧ (NetWorth.show_net_worth txns snaps).investmentAmount = t.amount
          ∧ (NetWorth.show_net_worth txns snaps).noSnapshot = false) := by
  refine ⟨rfl, rfl, ?_, ?_⟩
  · rintro rfl
    exact ⟨rfl, rfl⟩
  · intro hne
    cases hl : NetWorth.latestSnapshot snaps with
    | none => exact absurd (latestSnapshot_nil_of_none hl) hne
    | some t =>
      refine ⟨t, latestSnapshot_mem hl, latestSnapshot_max hl, ?_, ?_⟩
      · unfold NetWorth.show_net_worth
        rw [hl]
        rfl
      · unfold NetWorth.show_net_worth
        rw [hl]
        rfl

theorem c3_witness :
    (([exSnapOld, exSnap] : List InvestmentSnapshot) ≠ [])
    ∧ ∃ t ∈ [exSnapOld, exSnap],
        (∀ u ∈ [exSnapOld, exSnap], dateLe u.snapshot_date t.snapshot_date)
        ∧ (NetWorth.show_net_worth [exSavTxn] [exSnapOld, exSnap]).investmentAmount = t.amount
        ∧ (NetWorth.show_net_worth [exSavTxn] [exSnapOld, exSnap]).noSnapshot = false :=
  ⟨by decide, (c3_net_worth [exSavTxn] [exSnapOld, exSnap]).2.2.2 (by decide)⟩

/-- C4: with no budget items and no Expense transactions in the requested
period, both report commands reach `max()` over an empty category list and
crash with an uncaught `ValueError` instead of printing an empty report. -/
theorem c4_empty_period_crashes (items : List BudgetItem) (txns : List Transaction) (m y : Int)
    (hb : items.filter (Reports.budgetMatchesMonth m y) = [])
    (ht : txns.filter (Reports.txnMatchesMonth m y) = [])
    (hby : items.filter (Reports.budgetMatchesYear y) = [])
    (hty : txns.filter (Reports.txnMatchesYear y) = []) :
    Reports.compare_expenses items txns m y = Reports.ReportOutcome.crashed
    ∧ Reports.accumulated_expenses items txns y = Reports.ReportOutcome.crashed := by
  constructor
  · unfold Reports.compare_expenses
    rw [if_pos]
    simp [Reports.sortedCategories, Reports.budgetedRowsMonth, Reports.actualRowsMonth,
      hb, ht, groupSumTx, dictKeys, List.insertionSort]
  · unfold Reports.accumulated_expenses
    rw [if_pos]
    simp [Reports.sortedCategories, Reports.budgetedRowsYear, Reports.actualRowsYear,
      hby, hty, groupSumTx, groupSumBudget, dictKeys, List.insertionSort]

theorem c4_witness :
    Reports.compare_expenses [] [] 6 2024 = Reports.ReportOutcome.crashed
    ∧ Reports.accumulated_expenses [] [] 2024 = Reports.ReportOutcome.crashed :=
  c4_empty_period_crashes [] [] 6 2024 rfl rfl rfl rfl

theorem find?_key_map (ks : List String) (S : String → Int) (c : String) (h : c ∈ ks) :
    (((ks.map (fun k => (k, S k))).find? (fun r => decide (r.1 = c))).map Prod.snd)
      = some (S c) := by
  induction ks with
  | nil => cases h
  | cons k ks ih =>
    by_cases hk : k = c
    · subst hk
      rw [List.map_cons, List.find?_cons_of_pos _ (by simp)]
      rfl
    · rcases List.mem_cons.mp h with rfl | hmem
      · exact absurd rfl hk
      · rw [List.map_cons, List.find?_cons_of_neg _ (by simp [hk])]
        exact ih hmem

theorem dictLookup_map_snd (l : List (String × Int)) (g : Int → Int) (c : String) :
    dictLookup (l.map (fun r => (r.1, g r.2))) c = (dictLookup l c).map g := by
  unfold dictLookup
  rw [← List.map_reverse]
  generalize l.reverse = m
  induction m with
  | nil => rfl
  | cons a as ih =>
    by_cases h : a.1 = c
    · rw [List.map_cons, List.find?_cons_of_pos _ (by simp [h]),
        List.find?_cons_of_pos _ (by simp [h])]
      rfl
    · rw [List.map_cons, List.find?_cons_of_neg _ (by simp [h]),
        List.find?_cons_of_neg _ (by simp [h])]
      exact ih

theorem dictKeys_map_snd (l : List (String × Int)) (g : Int → Int) :
    dictKeys (l.map (fun r => (r.1, g r.2))) = dictKeys l := by
  unfold dictKeys
  rw [List.map_map]
  rfl

theorem dictKeys_groupSumTx (ts : List Transaction) :
    dictKeys (groupSumTx ts) = (ts.map Transaction.category).dedup := by
  unfold dictKeys groupSumTx
  rw [List.map_map]
  have : ((ts.map Transaction.category).dedup.map
      ((fun r : String × Int => r.1) ∘ fun c =>
        (c, ((ts.filter (fun t => decide (t.category = c))).map Transaction.amount).sum)))
      = (ts.map Transaction.category).dedup := List.map_id'' (fun _ => rfl) _
  rw [this, List.dedup_idem]

theorem dictLookup_groupSumTx (ts : List Transaction) (c : String)
    (h : c ∈ (ts.map Transaction.category).dedup) :
    dictLookup (groupSumTx ts) c
      = some (((ts.filter (fun t => decide (t.category = c))).map Transaction.amount).sum) := by
  unfold dictLookup groupSumTx
  rw [← List.map_reverse]
  exact find?_key_map _ _ c (List.mem_reverse.mpr h)

/-- C5 counterexample: for the June 2024 Food category holding two Expense
transactions with stored amounts -120 and 50 (positive Expense amounts are
anticipated by the source's own "regardless of old data" comment), the report
shows actual = |-120 + 50| = 70, while the sum of the magnitudes of the
amounts is 170. -/
theorem c5_counterexample :
    dictLookup (Reports.actualRowsMonth [exTxnNeg, exTxnPos] 6 2024) "Food" = some 70
    ∧ (([exTxnNeg, exTxnPos].filter (Reports.txnMatchesMonth 6 2024)).map
        (fun t => |t.amount|)).sum = 170
    ∧ (some 70 : Option Int) ≠ some 170 := by
  decide

/-- C5 amended: the actual spend reported for a category is the absolute value
of the sum of the Expense-type transaction amounts of that category in the
period (month report: matching month and year; accumulated report: matching
year); this agrees with the sum of magnitudes only when all stored amounts of
the group share one sign. -/
theorem c5_actual_is_abs_of_sum :
    (∀ (txns : List Transaction) (m y : Int) (c : String),
      c ∈ dictKeys (Reports.actualRowsMonth txns m y) →
      dictLookup (Reports.actualRowsMonth txns m y) c
        = some |(((txns.filter (Reports.txnMatchesMonth m y)).filter
            (fun t => decide (t.category = c))).map Transaction.amount).sum|)
    ∧ (∀ (txns : List Transaction) (y : Int) (c : String),
      c ∈ dictKeys (Reports.actualRowsYear txns y) →
      dictLookup (Reports.actualRowsYear txns y) c
        = some |(((txns.filter (Reports.txnMatchesYear y)).filter
            (fun t => decide (t.category = c))).map Transaction.amount).sum|) := by
  constructor
  · intro txns m y c h
    have hkeys : dictKeys (Reports.actualRowsMonth txns m y)
        = ((txns.filter (Reports.txnMatchesMonth m y)).map Transaction.category).dedup :=
      (dictKeys_map_snd (groupSumTx (txns.filter (Reports.txnMatchesMonth m y)))
        (fun x => |x|)).trans
        (dictKeys_groupSumTx (txns.filter (Reports.txnMatchesMonth m y)))
    have hmem : c ∈ ((txns.filter (Reports.txnMatchesMonth m y)).map
        Transaction.category).dedup := hkeys ▸ h
    have hmap : dictLookup (Reports.actualRowsMonth txns m y) c
        = (dictLookup (groupSumTx (txns.filter (Reports.txnMatchesMonth m y))) c).map
            (fun x => |x|) :=
      dictLookup_map_snd (groupSumTx (txns.filter (Reports.txnMatchesMonth m y)))
        (fun x => |x|) c
    rw [hmap, dictLookup_groupSumTx _ _ hmem]
    rfl
  · intro txns y c h
    have hkeys : dictKeys (Reports.actualRowsYear txns y)
        = ((txns.filter (Reports.txnMatchesYear y)).map Transaction.category).dedup :=
      (dictKeys_map_snd (groupSumTx (txns.filter (Reports.txnMatchesYear y)))
        (fun x => |x|)).trans
        (dictKeys_groupSumTx (txns.filter (Reports.txnMatchesYear y)))
    have hmem : c ∈ ((txns.filter (Reports.txnMatchesYear y)).map
        Transaction.category).dedup := hkeys ▸ h
    have hmap : dictLookup (Reports.actualRowsYear txns y) c
        = (dictLookup (groupSumTx (txns.filter (Reports.txnMatchesYear y))) c).map
            (fun x => |x|) :=
      dictLookup_map_snd (groupSumTx (txns.filter (Reports.txnMatchesYear y)))
        (fun x => |x|) c
    rw [hmap, dictLookup_groupSumTx _ _ hmem]
    rfl

theorem c5_witness :
    dictLookup (Reports.actualRowsMonth [exTxnNeg, exTxnPos] 6 2024) "Food"
      = some |((([exTxnNeg, exTxnPos].filter (Reports.txnMatchesMonth 6 2024)).filter
          (fun t => decide (t.category = "Food"))).map Transaction.amount).sum| :=
  c5_actual_is_abs_of_sum.1 [exTxnNeg, exTxnPos] 6 2024 "Food" (by decide)

theorem budgetUpdate_keys_nodup {db : List BudgetItem} (it : BudgetItem)
    (h : (db.map budgetKey).Nodup) : ((Budget.update db it).map budgetKey).Nodup := by
  unfold Budget.update
  rw [List.map_cons]
  refine List.nodup_cons.mpr ⟨?_, ?_⟩
  · intro hmem
    obtain ⟨r, hr, hkey⟩ := List.mem_map.mp hmem
    have hp := List.of_mem_filter hr
    simp only [Bool.not_eq_eq_eq_not, Bool.not_true, decide_eq_false_iff_not] at hp
    exact hp hkey
  · exact (((List.filter_sublist db).map budgetKey).nodup h)

theorem filter_budgetUpdate (db : List BudgetItem) (it : BudgetItem)
    (k : BudgetType × String × Int × Int) :
    (Budget.update db it).filter (fun r => decide (budgetKey r = k))
      = if budgetKey it = k then [it]
        else db.filter (fun r => decide (budgetKey r = k)) := by
  unfold Budget.update
  by_cases hk : budgetKey it = k
  · rw [if_pos hk, List.filter_cons_of_pos (by simp [hk])]
    have : (db.filter (fun r => !(decide (budgetKey r = budgetKey it)))).filter
        (fun r => decide (budgetKey r = k)) = [] := by
      rw [List.filter_filter]
      refine List.filter_eq_nil_iff.mpr ?_
      intro a _
      by_cases ha : budgetKey a = k
      · have hit : budgetKey a = budgetKey it := ha.trans hk.symm
        simp [ha, hit]
        exact hk.symm
      · simp [ha]
    rw [this]
  · rw [if_neg hk, List.filter_cons_of_neg (by simp [hk]), List.filter_filter]
    refine List.filter_congr ?_
    intro a _
    by_cases ha : budgetKey a = k
    · have hne : budgetKey a ≠ budgetKey it := fun e => hk (e ▸ ha)
      simp [ha, hne]
      exact fun e => hk e.symm
    · simp [ha]

theorem filter_key_length_le_one {db : List BudgetItem}
    (h : (db.map budgetKey).Nodup) (k : BudgetType × String × Int × Int) :
    (db.filter (fun r => decide (budgetKey r = k))).length ≤ 1 := by
  induction db with
  | nil => simp
  | cons a l ih =>
    rw [List.map_cons, List.nodup_cons] at h
    by_cases ha : budgetKey a = k
    · rw [List.filter_cons_of_pos (by simp [ha])]
      have hnil : l.filter (fun r => decide (budgetKey r = k)) = [] := by
        refine List.filter_eq_nil_iff.mpr ?_
        intro r hr
        simp only [decide_eq_true_eq]
        intro hrk
        exact h.1 (List.mem_map.mpr ⟨r, hr, hrk.trans ha.symm⟩)
      rw [hnil]
      simp
    · rw [List.filter_cons_of_neg (by simp [ha])]
      exact ih h.2

theorem foldl_update_keys_nodup (ops : List BudgetItem) (db : List BudgetItem)
    (h : (db.map budgetKey).Nodup) :
    ((ops.foldl Budget.update db).map budgetKey).Nodup := by
  induction ops generalizing db with
  | nil => exact h
  | cons o ops ih => exact ih _ (budgetUpdate_keys_nodup o h)

theorem foldl_update_filter_untouched (ops : List BudgetItem) (db : List BudgetItem)
    (k : BudgetType × String × Int × Int) (h : ∀ o ∈ ops, budgetKey o ≠ k) :
    (ops.foldl Budget.update db).filter (fun r => decide (budgetKey r = k))
      = db.filter (fun r => decide (budgetKey r = k)) := by
  induction ops generalizing db with
  | nil => rfl
  | cons o ops ih =>
    rw [List.foldl_cons, ih _ (fun p hp => h p (List.mem_cons_of_mem _ hp)),
      filter_budgetUpdate, if_neg (h o (List.mem_cons_self _ _))]

theorem foldl_update_filter_last (ops : List BudgetItem) (db : List BudgetItem)
    (k : BudgetType × String × Int × Int) (o : BudgetItem)
    (ho : ops.reverse.find? (fun r => decide (budgetKey r = k)) = some o) :
    (ops.foldl Budget.update db).filter (fun r => decide (budgetKey r = k)) = [o] := by
  induction ops generalizing db with
  | nil => cases ho
  | cons p ops ih =>
    rw [List.foldl_cons]
    rw [List.reverse_cons, List.find?_append] at ho
    cases hfind : ops.reverse.find? (fun r => decide (budgetKey r = k)) with
    | some q =>
      rw [hfind] at ho
      have hq : q = o := by simpa using ho
      subst hq
      exact ih _ hfind
    | none =>
      rw [hfind] at ho
      simp only [Option.none_or] at ho
      have hnone : ∀ r ∈ ops, budgetKey r ≠ k := by
        intro r hr hk
        have := List.find?_eq_none.mp hfind r (List.mem_reverse.mpr hr)
        simp only [decide_eq_true_eq] at this
        exact this hk
      by_cases hpk : budgetKey p = k
      · have hpo : p = o := by
          rw [List.find?_cons_of_pos _ (by simp [hpk])] at ho
          cases ho
          rfl
        rw [foldl_update_filter_untouched ops _ k hnone,
          filter_budgetUpdate, if_pos hpk, hpo]
      · rw [List.find?_cons_of_neg _ (by simp [hpk]), List.find?_nil] at ho
        cases ho

/-- C6: starting from any store whose budget keys are unique, after any
sequence of `budget update` operations at most one row carries any given
(type, category, month, year) key, and when the sequence updates that key,
exactly one row carries it and it is the row of the most recent update. -/
theorem c6_upsert_unique (db ops : List BudgetItem)
    (h : (db.map budgetKey).Nodup) (k : BudgetType × String × Int × Int) :
    ((ops.foldl Budget.update db).filter (fun r => decide (budgetKey r = k))).length ≤ 1
    ∧ (∀ o, ops.reverse.find? (fun r => decide (budgetKey r = k)) = some o →
        (ops.foldl Budget.update db).filter (fun r => decide (budgetKey r = k)) = [o]) :=
  ⟨filter_key_length_le_one (foldl_update_keys_nodup ops db h) k,
   fun o ho => foldl_update_filter_last ops db k o ho⟩

theorem c6_witness :
    (([exBudgetFood, exBudgetFood200].foldl Budget.update []).filter
        (fun r => decide (budgetKey r = budgetKey exBudgetFood))).length ≤ 1
    ∧ ([exBudgetFood, exBudgetFood200].foldl Budget.update []).filter
        (fun r => decide (budgetKey r = budgetKey exBudgetFood)) = [exBudgetFood200] :=
  ⟨(c6_upsert_unique [] [exBudgetFood, exBudgetFood200] (by decide)
      (budgetKey exBudgetFood)).1,
   (c6_upsert_unique [] [exBudgetFood, exBudgetFood200] (by decide)
      (budgetKey exBudgetFood)).2 exBudgetFood200 (by decide)⟩

theorem totalAmount_insertionSort (l : List Transaction) :
    Transactions.totalAmount (List.insertionSort Transactions.txnDesc l)
      = Transactions.totalAmount l :=
  ((List.perm_insertionSort Transactions.txnDesc l).map Transaction.amount).sum_eq

theorem foldl_add_filter_sum (ops : List Transactions.AddOp) (db : List Transaction)
    (p : Transaction → Bool) (q : Transactions.AddOp → Bool)
    (hpq : ∀ (i : Nat) (o : Transactions.AddOp), p (Transactions.mkTransaction i o) = q o) :
    (((ops.foldl Transactions.add_transaction db).filter p).map Transaction.amount).sum
      = ((db.filter p).map Transaction.amount).sum
        + ((ops.filter q).map Transactions.storedAmount).sum := by
  induction ops generalizing db with
  | nil => simp
  | cons o ops ih =>
    rw [List.foldl_cons, ih (Transactions.add_transaction db o)]
    unfold Transactions.add_transaction
    rw [List.filter_append, List.map_append, List.sum_append]
    by_cases hq : q o = true
    · rw [List.filter_cons_of_pos hq,
        List.filter_cons_of_pos (by rw [hpq]; exact hq)]
      simp only [List.filter_nil, List.map_cons, List.map_nil, List.sum_cons, List.sum_nil]
      have hamt : (Transactions.mkTransaction (db.length + 1) o).amount
          = Transactions.storedAmount o := rfl
      rw [hamt]
      omega
    · rw [List.filter_cons_of_neg hq,
        List.filter_cons_of_neg (by rw [hpq]; exact hq)]
      simp

/-- C7: `transactions add` stores an Expense amount negated, and both the
`transactions summarize` total and the net-worth savings sum are sums of the
stored signed amounts, so a store built from entry operations sums to the
signed (net cash flow) contributions of the matching entries. -/
theorem c7_sign_convention :
    (∀ (db : List Transaction) (op : Transactions.AddOp),
      op.type = TransactionType.expense →
      Transactions.add_transaction db op
          = db ++ [Transactions.mkTransaction (db.length + 1) op]
        ∧ (Transactions.mkTransaction (db.length + 1) op).amount = -op.amount)
    ∧ (∀ (ops : List Transactions.AddOp) (m y : Int),
      Transactions.totalAmount
          (Transactions.summarize_transactions
            (ops.foldl Transactions.add_transaction []) m y none none none)
        = ((ops.filter (fun o => decide (o.date.month = m) && decide (o.date.year = y))).map
            Transactions.storedAmount).sum)
    ∧ (∀ (ops : List Transactions.AddOp) (snaps : List InvestmentSnapshot),
      (NetWorth.show_net_worth (ops.foldl Transactions.add_transaction []) snaps).totalSavings
        = ((ops.filter (fun o => decide (o.type = TransactionType.savings)
              && decide (o.category = "Cash"))).map Transactions.storedAmount).sum) := by
  refine ⟨?_, ?_, ?_⟩
  · intro db op h
    refine ⟨rfl, ?_⟩
    show Transactions.storedAmount op = -op.amount
    unfold Transactions.storedAmount
    rw [if_pos h]
  · intro ops m y
    unfold Transactions.summarize_transactions
    rw [totalAmount_insertionSort]
    unfold Transactions.totalAmount
    have := foldl_add_filter_sum ops []
      (Transactions.summarizeFilter m y none none none)
      (fun o => decide (o.date.month = m) && decide (o.date.year = y))
      (fun i o => by simp [Transactions.summarizeFilter, Transactions.mkTransaction])
    simpa using this
  · intro ops snaps
    show (((ops.foldl Transactions.add_transaction []).filter NetWorth.savingsCash).map
        Transaction.amount).sum = _
    have := foldl_add_filter_sum ops [] NetWorth.savingsCash
      (fun o => decide (o.type = TransactionType.savings) && decide (o.category = "Cash"))
      (fun i o => by simp [NetWorth.savingsCash, Transactions.mkTransaction])
    simpa using this

theorem c7_witness :
    Transactions.add_transaction [] exAddExpense
        = [] ++ [Transactions.mkTransaction (([] : List Transaction).length + 1) exAddExpense]
      ∧ (Transactions.mkTransaction (([] : List Transaction).length + 1) exAddExpense).amount
        = -exAddExpense.amount :=
  c7_sign_convention.1 [] exAddExpense (by decide)

/-- C8 counterexample: deleting transaction id 1 from an empty store reports
the ordinary deletion message, not a not-found message: `transactions delete`
never consults the affected-row count. -/
theorem c8_counterexample :
    (Transactions.delete_transaction [] 1).2 = Msg.deleted 1
    ∧ Msg.deleted 1 ≠ Msg.notFound 1
    ∧ (Transactions.delete_transaction [] 1).1 = [] := by
  decide

/-- C8 amended: for an id absent from the store, `targets achieve` and
`targets delete` report not-found, do not fail and leave the store unchanged;
`transactions delete` also leaves the store unchanged and does not fail, but
prints its ordinary deletion message instead of reporting not-found. -/
theorem c8_missing_id (tdb : List TargetItem) (xdb : List Transaction) (tid : Nat)
    (ht : ∀ t ∈ tdb, t.id ≠ tid) (hx : ∀ t ∈ xdb, t.id ≠ tid) :
    Targets.achieve_target tdb tid = (tdb, Msg.notFound tid)
    ∧ Targets.delete_target tdb tid = (tdb, Msg.notFound tid)
    ∧ Transactions.delete_transaction xdb tid = (xdb, Msg.deleted tid) := by
  have hanyT : tdb.any (fun t => decide (t.id = tid)) = false :=
    List.any_eq_false.mpr (by intro t htm; simpa using ht t htm)
  have hmap : tdb.map (fun t => if t.id = tid then { t with purchased := true } else t)
      = tdb := by
    rw [List.map_congr_left (g := id) ?_, List.map_id]
    intro t htm
    simp [ht t htm]
  have hfilterT : tdb.filter (fun t => !(decide (t.id = tid))) = tdb :=
    List.filter_eq_self.mpr (by intro t htm; simpa using ht t htm)
  have hfilterX : xdb.filter (fun t => !(decide (t.id = tid))) = xdb :=
    List.filter_eq_self.mpr (by intro t htm; simpa using hx t htm)
  refine ⟨?_, ?_, ?_⟩
  · unfold Targets.achieve_target
    rw [hanyT, hmap]
    rfl
  · unfold Targets.delete_target
    rw [hanyT, hfilterT]
    rfl
  · unfold Transactions.delete_transaction
    rw [hfilterX]

theorem c8_witness :
    Targets.achieve_target [exTargetA] 99 = ([exTargetA], Msg.notFound 99)
    ∧ Targets.delete_target [exTargetA] 99 = ([exTargetA], Msg.notFound 99)
    ∧ Transactions.delete_transaction [exTxnNeg] 99 = ([exTxnNeg], Msg.deleted 99) :=
  c8_missing_id [exTargetA] [exTxnNeg] 99 (by decide) (by decide)

instance : IsTotal BudgetItem Budget.amountDesc :=
  ⟨fun a b => Int.le_total b.amount a.amount⟩

instance : IsTrans BudgetItem Budget.amountDesc :=
  ⟨fun _ _ _ h₁ h₂ => le_trans h₂ h₁⟩

theorem groupItems_sum (db : List BudgetItem) (m y : Int) (bt : BudgetType) :
    ((Budget.groupItems db m y bt).map BudgetItem.amount).sum
      = (((db.filter (Budget.inPeriod m y)).filter
          (fun b => decide (b.type = bt))).map BudgetItem.amount).sum :=
  ((List.perm_insertionSort Budget.amountDesc _).map BudgetItem.amount).sum_eq

/-- C9: `budget summarize` groups the period's budget items by type in the
order Income, Expense, Savings, lists each group in descending order of
amount with a subtotal equal to the sum of that type's amounts, and reports a
surplus equal to total Income minus total Expense minus total Savings,
labelled Deficit exactly when it is negative. -/
theorem c9_budget_summary (db : List BudgetItem) (m y : Int) :
    (Budget.summarize db m y).groups.map Budget.TypeGroup.type
        = [BudgetType.income, BudgetType.expense, BudgetType.savings]
    ∧ (∀ g ∈ (Budget.summarize db m y).groups,
        g.items.Sorted Budget.amountDesc
        ∧ g.items.Perm ((db.filter (Budget.inPeriod m y)).filter
            (fun b => decide (b.type = g.type)))
        ∧ g.subtotal = (g.items.map BudgetItem.amount).sum)
    ∧ (Budget.summarize db m y).surplus
        = (Budget.summarize db m y).totalIncome
          - (Budget.summarize db m y).totalExpense
          - (Budget.summarize db m y).totalSavingsAmt
    ∧ (Budget.summarize db m y).totalIncome
        = (((db.filter (Budget.inPeriod m y)).filter
            (fun b => decide (b.type = BudgetType.income))).map BudgetItem.amount).sum
    ∧ (Budget.summarize db m y).totalExpense
        = (((db.filter (Budget.inPeriod m y)).filter
            (fun b => decide (b.type = BudgetType.expense))).map BudgetItem.amount).sum
    ∧ (Budget.summarize db m y).totalSavingsAmt
        = (((db.filter (Budget.inPeriod m y)).filter
            (fun b => decide (b.type = BudgetType.savings))).map BudgetItem.amount).sum
    ∧ ((Budget.summarize db m y).isSurplus = false
        ↔ (Budget.summarize db m y).surplus < 0) := by
  refine ⟨rfl, ?_, rfl, groupItems_sum db m y BudgetType.income,
    groupItems_sum db m y BudgetType.expense, groupItems_sum db m y BudgetType.savings, ?_⟩
  · intro g hg
    simp only [Budget.summarize, List.mem_cons, List.not_mem_nil, or_false] at hg
    rcases hg with rfl | rfl | rfl
    · exact ⟨List.sorted_insertionSort _ _, List.perm_insertionSort _ _, rfl⟩
    · exact ⟨List.sorted_insertionSort _ _, List.perm_insertionSort _ _, rfl⟩
    · exact ⟨List.sorted_insertionSort _ _, List.perm_insertionSort _ _, rfl⟩
  · show decide (0 ≤ (Budget.summarize db m y).surplus) = false
        ↔ (Budget.summarize db m y).surplus < 0
    rw [decide_eq_false_iff_not]
    omega

theorem c9_witness :
    (⟨BudgetType.income, [], 0⟩ : Budget.TypeGroup).items.Sorted Budget.amountDesc
    ∧ (⟨BudgetType.income, [], 0⟩ : Budget.TypeGroup).items.Perm
        (([exBudgetFood].filter (Budget.inPeriod 6 2024)).filter
          (fun b => decide (b.type = (⟨BudgetType.income, [], 0⟩ : Budget.TypeGroup).type)))
    ∧ (⟨BudgetType.income, [], 0⟩ : Budget.TypeGroup).subtotal
        = ((⟨BudgetType.income, [], 0⟩ : Budget.TypeGroup).items.map BudgetItem.amount).sum :=
  (c9_budget_summary [exBudgetFood] 6 2024).2.1 ⟨BudgetType.income, [], 0⟩ (by decide)

instance : IsTotal TargetItem Targets.prioIdLe :=
  ⟨by intro a b; unfold Targets.prioIdLe; omega⟩

instance : IsTrans TargetItem Targets.prioIdLe :=
  ⟨by intro a b c; unfold Targets.prioIdLe; omega⟩

/-- C10: `targets list` without `--all` returns exactly the targets with
`purchased = false` and with `--all` every target, in both cases ordered by
ascending priority and, within equal priority, ascending id. -/
theorem c10_list_targets (db : List TargetItem) :
    (Targets.list_targets db false).Perm
        (db.filter (fun t => decide (t.purchased = false)))
    ∧ (∀ t, t ∈ Targets.list_targets db false ↔ (t ∈ db ∧ t.purchased = false))
    ∧ (Targets.list_targets db true).Perm db
    ∧ (∀ b : Bool, (Targets.list_targets db b).Sorted Targets.prioIdLe) := by
  refine ⟨List.perm_insertionSort _ _, ?_, List.perm_insertionSort _ _, ?_⟩
  · intro t
    rw [show Targets.list_targets db false
          = List.insertionSort Targets.prioIdLe
              (db.filter (fun u => decide (u.purchased = false))) from rfl]
    rw [(List.perm_insertionSort Targets.prioIdLe
          (db.filter (fun u => decide (u.purchased = false)))).mem_iff, List.mem_filter]
    simp
  · intro b
    cases b
    · exact List.sorted_insertionSort _ _
    · exact List.sorted_insertionSort _ _
